import Mathlib

/-!
Verification of the business-hours call-forwarding webhook
(`twilio-samples/call-forwarding-voicemail-go`, `main.go`).

The embedding models instants as minutes since a fixed epoch that falls on a
Sunday at 00:00 UTC, matching Go's `time.Weekday` numbering (Sunday = 0).
`time.Time.Before`/`After` become `<`/`>` on these minute counts, and
`Add(time.Hour * n)` becomes adding `60 * n` minutes.

The repository depends on the third-party package `github.com/tj/go-naturaldate` for
resolving the queries `"last <weekday>"`, `"next <weekday>"` and a bare hour
numeral; that dependency's source is not part of the repository, so its three
usages are modelled from the specification's description of the four reference
points (see the doc comments marked `Modelled from the spec:`).
-/

namespace CallForwarding

/-- Minutes in a day; an instant is a `Nat` counting the minutes elapsed since
the epoch, which is a Sunday 00:00. -/
def minutesPerDay : Nat := 1440

/-- Go `time.Weekday` of an instant: Sunday = 0, Monday = 1, …, Saturday = 6.
The epoch is a Sunday. -/
def weekdayOf (t : Nat) : Nat := (t / minutesPerDay) % 7

/-- Midnight (00:00) of the day the instant falls in. -/
def midnightOf (t : Nat) : Nat := (t / minutesPerDay) * minutesPerDay

/-- Minute of the day (0 … 1439) of an instant: its time of day. -/
def minuteOfDay (t : Nat) : Nat := t % minutesPerDay

/-- Go `a.Before(b)`: strict. -/
def timeBefore (a b : Nat) : Bool := a < b

/-- Go `a.After(b)`: strict. -/
def timeAfter (a b : Nat) : Bool := b < a

/-- Go `t.Add(time.Hour * time.Duration(h))` for a non-negative hour count. -/
def addHours (t : Nat) (h : Nat) : Nat := t + 60 * h

/-- Go `time.Weekday` values for the seven canonical weekday names, as accepted
in the configuration (`WORK_WEEK_START` / `WORK_WEEK_END`); an unknown name is
the malformed-configuration case. -/
def parseWeekday : String → Option Nat
  | "Sunday" => some 0
  | "Monday" => some 1
  | "Tuesday" => some 2
  | "Wednesday" => some 3
  | "Thursday" => some 4
  | "Friday" => some 5
  | "Saturday" => some 6
  | _ => none

/-- Modelled from the spec: "the most recent occurrence of `window.startDay` at
midnight".  The most recent midnight with weekday `d` at or before `now`
(today's midnight when today has weekday `d`). -/
def mostRecentOccurrenceMidnight (d : Nat) (now : Nat) : Nat :=
  midnightOf now - ((weekdayOf now + 7 - d) % 7) * minutesPerDay

/-- Modelled from the spec: "the next occurrence of `window.endDay` at
midnight".  The first midnight with weekday `d` strictly after `now` (a full
week ahead when today has weekday `d`, since today's midnight is already past). -/
def nextOccurrenceMidnight (d : Nat) (now : Nat) : Nat :=
  midnightOf now + (let r := (d + 7 - weekdayOf now) % 7; if r = 0 then 7 else r) * minutesPerDay

/-- Modelled from the spec: "today at `window.startHour`:00" / "today at
`window.endHour`:00". -/
def todayAtHour (h : Nat) (now : Nat) : Nat := midnightOf now + 60 * h

/-- Model of `naturaldate.Parse ("last " ++ day) now` from the dependency
`github.com/tj/go-naturaldate` (source not in the repository).  Modelled from
the spec: it resolves a valid weekday name to the most recent occurrence of
that weekday at midnight, and fails on a malformed weekday name. -/
def naturaldateParseLast (day : String) (now : Nat) : Option Nat :=
  (parseWeekday day).map (fun d => mostRecentOccurrenceMidnight d now)

/-- Model of `naturaldate.Parse ("next " ++ day) now`.  Modelled from the spec:
it resolves a valid weekday name to the next occurrence of that weekday at
midnight, and fails on a malformed weekday name. -/
def naturaldateParseNext (day : String) (now : Nat) : Option Nat :=
  (parseWeekday day).map (fun d => nextOccurrenceMidnight d now)

/-- Model of `naturaldate.Parse (strconv.Itoa h) now` for an hour numeral.
Modelled from the spec: an hour value 0–23 resolves to today at `h`:00, and an
out-of-range hour value is the malformed-configuration case. -/
def naturaldateParseHour (h : Nat) (now : Nat) : Option Nat :=
  if h ≤ 23 then some (todayAtHour h now) else none

/-- The `workWeekStart` reference point of `isDuringBusinessHours`:
`naturaldate.Parse("last "+weekStart, now)` shifted by `dayStart` hours. -/
def workWeekStartPoint (weekStart : String) (dayStart : Nat) (now : Nat) : Option Nat :=
  (naturaldateParseLast weekStart now).map (fun t => addHours t dayStart)

/-- The `workWeekEnd` reference point of `isDuringBusinessHours`:
`naturaldate.Parse("next "+weekEnd, now)` shifted by `dayEnd` hours. -/
def workWeekEndPoint (weekEnd : String) (dayEnd : Nat) (now : Nat) : Option Nat :=
  (naturaldateParseNext weekEnd now).map (fun t => addHours t dayEnd)

/-- The boolean actually returned by `isDuringBusinessHours` (main.go line 45):
`now.Before(workWeekStart) || now.After(workWeekEnd) || now.Before(workDayStart)
|| now.After(workDayEnd)`.  Per the spec's Result clause this disjunction is the
OUTSIDE-business-hours condition. -/
def outsideCondition (workWeekStart workWeekEnd workDayStart workDayEnd now : Nat) : Bool :=
  timeBefore now workWeekStart || timeAfter now workWeekEnd ||
    timeBefore now workDayStart || timeAfter now workDayEnd

/-- `isDuringBusinessHours` (main.go lines 21–46) with `time.Now()` passed in
explicitly as `now`.  Each `naturaldate.Parse` failure is propagated as an
error, exactly in the source's order; otherwise the function returns the
boolean of line 45. -/
def isDuringBusinessHours (weekStart weekEnd : String) (dayStart dayEnd : Nat)
    (now : Nat) : Except String Bool :=
  match naturaldateParseLast weekStart now with
  | none => .error ("cannot parse: last " ++ weekStart)
  | some t1 =>
    let workWeekStart := addHours t1 dayStart
    match naturaldateParseNext weekEnd now with
    | none => .error ("cannot parse: next " ++ weekEnd)
    | some t2 =>
      let workWeekEnd := addHours t2 dayEnd
      match naturaldateParseHour dayStart now with
      | none => .error ("cannot parse: " ++ toString dayStart)
      | some workDayStart =>
        match naturaldateParseHour dayEnd now with
        | none => .error ("cannot parse: " ++ toString dayEnd)
        | some workDayEnd =>
          .ok (outsideCondition workWeekStart workWeekEnd workDayStart workDayEnd now)

/-- The process environment as a finite list of variable bindings. -/
def Env := List (String × String)

/-- `os.LookupEnv`: the value bound to a key, when present. -/
def lookupEnv (e : Env) (key : String) : Option String :=
  (e.find? (fun p => p.1 = key)).map (fun p => p.2)

/-- `getEnv` (main.go lines 50–55): the environment value when the key is set,
the fallback otherwise. -/
def getEnv (e : Env) (key fallback : String) : String :=
  (lookupEnv e key).getD fallback

/-- `os.Getenv`: the environment value, or the empty string when unset. -/
def osGetenv (e : Env) (key : String) : String :=
  (lookupEnv e key).getD ""

/-- The numeric value of a decimal digit character, when it is one. -/
def charDigit? (c : Char) : Option Nat :=
  if c.isDigit then some (c.toNat - 48) else none

/-- Decimal accumulation over a digit list, failing at the first non-digit. -/
def parseDigits : List Char → Nat → Option Nat
  | [], acc => some acc
  | c :: cs, acc =>
    match charDigit? c with
    | none => none
    | some d => parseDigits cs (10 * acc + d)

/-- A non-negative decimal numeral's value; `none` for the empty string or a
non-digit character. -/
def parseNat? (s : String) : Option Nat :=
  match s.data with
  | [] => none
  | cs => parseDigits cs 0

/-- `strconv.Atoi` restricted to the non-negative numerals used here; in the
source its error is discarded with `_`, leaving the zero value on failure. -/
def atoiOrZero (s : String) : Nat :=
  (parseNat? s).getD 0

/-- One observable write made by a handler to its `http.ResponseWriter`:
a response header, an `http.Error` (status line plus error body), or a body
write. -/
inductive WriteEvent where
  | header (key value : String)
  | httpError (status : Nat) (body : String)
  | write (body : String)
deriving DecidableEq, Repr

/-- The JSON error body built by `appError` (main.go lines 57–66) out of the
`ddymko/go-jsonerror` dependency: detail, code "400", title "Something went
wrong", status 400.  The dependency's exact rendering is external; the body is
modelled as the detail tagged with those fixed fields. -/
def appErrorBody (detail : String) : String :=
  "\x7b\"errors\":[\x7b\"detail\":\"" ++ detail ++
    "\",\"code\":\"400\",\"title\":\"Something went wrong\",\"status\":400\x7d]\x7d"

/-- `appError` (main.go lines 57–66): writes an HTTP 400 via `http.Error` with
the JSON error body. -/
def appErrorEvent (detail : String) : WriteEvent :=
  .httpError 400 (appErrorBody detail)

/-- A TwiML element handed to `twiml.Voice`. -/
inductive TwimlElement where
  | record (finishOnKey maxLength timeout transcribe transcribeCallback : String)
  | dial (number : String)
  | say (message : String)
deriving DecidableEq, Repr

/-- The `twiml.VoiceRecord` literal of main.go lines 90–96. -/
def recordElement : TwimlElement :=
  .record "#" "300" "10" "true" "/sms"

/-- The `twiml.VoiceDial` and `twiml.VoiceSay` literals of main.go lines 105–106. -/
def dialElements (env : Env) : List TwimlElement :=
  [.dial (osGetenv env "MY_PHONE_NUMBER"),
   .say "Sorry, I was unable to redirect you. Goodbye."]

/-- Go renders a `nil` error through the `%s` verb as this text; it appears in
the messages `handleCallRequest` formats on main.go lines 98 and 108, where the
formatted error is `nil` because of the inverted `err == nil` guard. -/
def nilErrorText : String := "%!s(<nil>)"

/-- A model of the `twiml.Voice` dependency: Go-style result pair of the markup
string and an optional error. -/
abbrev VoiceFn := List TwimlElement → String × Option String

/-- `handleCallRequest` (main.go lines 74–109) as a function from the
`twiml.Voice` behaviour, the environment and the arrival instant to the list of
writes made to the response, in order:
reads the window configuration from the environment with defaults
Monday/Friday/8/18, evaluates `isDuringBusinessHours`, answers a 400 on its
error; otherwise sets the XML content-type header, takes the Record branch when
the returned boolean is false (`!duringBusinessHours`) and the Dial branch when
it is true, and in either branch calls `appError` exactly when `twiml.Voice`
returned a nil error (`if err == nil`), then writes the markup result
unconditionally. -/
def handleCallRequest (voice : VoiceFn) (env : Env) (now : Nat) : List WriteEvent :=
  let workWeekStart := getEnv env "WORK_WEEK_START" "Monday"
  let workWeekEnd := getEnv env "WORK_WEEK_END" "Friday"
  let workDayStart := atoiOrZero (getEnv env "WORK_DAY_START" "8")
  let workDayEnd := atoiOrZero (getEnv env "WORK_DAY_END" "18")
  match isDuringBusinessHours workWeekStart workWeekEnd workDayStart workDayEnd now with
  | .error e =>
      [appErrorEvent ("could not determine if current time is within business hours. reason: " ++ e)]
  | .ok duringBusinessHours =>
      let headerEvent := WriteEvent.header "Content-Type" "application/xml"
      if !duringBusinessHours then
        let res := voice [recordElement]
        match res.2 with
        | none =>
            [headerEvent,
             appErrorEvent ("could not record voice call. reason: " ++ nilErrorText),
             .write res.1]
        | some _ => [headerEvent, .write res.1]
      else
        let res := voice (dialElements env)
        match res.2 with
        | none =>
            [headerEvent,
             appErrorEvent ("could not redirect call. reason: " ++ nilErrorText),
             .write res.1]
        | some _ => [headerEvent, .write res.1]

/-- A flat textual rendering of a TwiML element, so that concrete evaluations
of the handler show which elements a branch requested. -/
def elementTag : TwimlElement → String
  | .record finishOnKey maxLength timeout transcribe transcribeCallback =>
      "Record " ++ finishOnKey ++ " " ++ maxLength ++ " " ++ timeout ++ " "
        ++ transcribe ++ " " ++ transcribeCallback
  | .dial number => "Dial " ++ number
  | .say message => "Say " ++ message

/-- A concrete `twiml.Voice` behaviour that always succeeds, rendering the
element tags; used to evaluate the handler on concrete inputs. -/
def voiceOk : VoiceFn :=
  fun elems => (String.intercalate ";" (elems.map elementTag), none)

/-- The Twilio message resource returned by `CreateMessage`; its `Status` field
is a string pointer in the Go API, hence optional. -/
structure Message where
  status : Option String
deriving DecidableEq, Repr

/-- The body text `sendVoiceRecording` writes for a message status (main.go
lines 130–133): the failure text when the status is one of "cancelled",
"failed", "undelivered", the success text otherwise. -/
def statusMessage (st : String) : String :=
  if ["cancelled", "failed", "undelivered"].contains st then
    "Something went wrong sending the SMS with the voice recording transcript."
  else
    "The SMS with the voice recording transcript was sent successfully."

/-- `sendVoiceRecording` (main.go lines 114–136) as a function of the outcome
of the `CreateMessage` API call (Go-style pair of a nilable response pointer
and an optional error).  After the call the handler prints any error and then
unconditionally dereferences `*resp.Status`; a nil response or nil status
pointer is a runtime panic, modelled as `none` (no response completes). -/
def sendVoiceRecording (createResult : Option Message × Option String) :
    Option (List WriteEvent) :=
  match createResult.1 with
  | none => none
  | some resp =>
    match resp.status with
    | none => none
    | some st => some [.write (statusMessage st)]

/-- `main` (main.go lines 138–151) up to serving: it loads the `.env` file and
aborts fatally when that fails, then registers the two handlers.  It performs
no validation of the business-hours configuration values in `env`. -/
def mainStartup (_env : Env) (dotenvLoadOk : Bool) : Except String Unit :=
  if dotenvLoadOk then .ok () else .error "Error loading .env file"

/-- The TwiML element list a branch of `handleCallRequest` passes to
`twiml.Voice`, keyed by the boolean the evaluator returned: the Dial/Say pair
on `true`, the Record element on `false` (the `!duringBusinessHours` branch). -/
def branchElems (b : Bool) (env : Env) : List TwimlElement :=
  if b then dialElements env else [recordElement]

/-- The error-message prefix each branch of `handleCallRequest` formats, keyed
by the boolean the evaluator returned. -/
def branchMsg (b : Bool) : String :=
  if b then "could not redirect call. reason: " else "could not record voice call. reason: "

/-- The ambient state an invocation can observe: the wall clock and the process
environment. -/
structure World where
  clock : Nat
  env : Env

/-- `isDuringBusinessHours` as it runs against ambient state: it reads
`time.Now()` from the world's clock and returns the world as it left it. -/
def isDuringBusinessHoursRun (weekStart weekEnd : String) (dayStart dayEnd : Nat)
    (w : World) : Except String Bool × World :=
  (isDuringBusinessHours weekStart weekEnd dayStart dayEnd w.clock, w)

/-- Wednesday 12:00 in the second week after the epoch (day 10 is a Wednesday
since the epoch is a Sunday). -/
def wedNoon : Nat := 10 * minutesPerDay + 12 * 60

/-- Saturday 12:00 (day 13 after the Sunday epoch). -/
def satNoon : Nat := 13 * minutesPerDay + 12 * 60

/-- Wednesday 07:59. -/
def wedZeroSevenFiftyNine : Nat := 10 * minutesPerDay + 7 * 60 + 59

/-- Wednesday 18:00 exactly. -/
def wedEighteen : Nat := 10 * minutesPerDay + 18 * 60

/-- Wednesday 18:01. -/
def wedEighteenOhOne : Nat := 10 * minutesPerDay + 18 * 60 + 1

/-- Claim C1 (code-bug evidence): with the default window (Monday–Friday,
8–18), at Wednesday 12:00 — inside the business-hours window — the handler
takes the voicemail Record branch, and at Wednesday 07:59 — outside the
window — it takes the call-forwarding Dial branch: the opposite of the routing
the claim and the handler's own doc comment state. -/
theorem handleCallRequest_routing_inverted :
    handleCallRequest voiceOk [] wedNoon =
      [WriteEvent.header "Content-Type" "application/xml",
       appErrorEvent ("could not record voice call. reason: " ++ nilErrorText),
       WriteEvent.write (voiceOk [recordElement]).1] ∧
    handleCallRequest voiceOk [] wedZeroSevenFiftyNine =
      [WriteEvent.header "Content-Type" "application/xml",
       appErrorEvent ("could not redirect call. reason: " ++ nilErrorText),
       WriteEvent.write (voiceOk (dialElements [])).1] :=
  ⟨rfl, rfl⟩

/-- Claim C2 (code-bug evidence): at Wednesday 12:00 with window Monday–Friday
8–18 none of the four outside conditions of the spec's Result clause holds —
the instant is inside business hours — yet `isDuringBusinessHours` returns
`false`: the function returns the outside-condition disjunction itself, not
its negation as its name and the claim state. -/
theorem isDuringBusinessHours_inverted_at_wednesday_noon :
    isDuringBusinessHours "Monday" "Friday" 8 18 wedNoon = Except.ok false ∧
    timeBefore wedNoon (addHours (mostRecentOccurrenceMidnight 1 wedNoon) 8) = false ∧
    timeAfter wedNoon (addHours (nextOccurrenceMidnight 5 wedNoon) 18) = false ∧
    timeBefore wedNoon (todayAtHour 8 wedNoon) = false ∧
    timeAfter wedNoon (todayAtHour 18 wedNoon) = false :=
  ⟨rfl, rfl, rfl, rfl, rfl⟩

/-- Claim C3: for every well-formed window and instant, the evaluator computes
with exactly the four reference points the spec describes: weekStart is the
most recent occurrence of the start day at midnight shifted by startHour
hours, weekEnd the next occurrence of the end day at midnight shifted by
endHour hours, dayStart today at startHour:00, and dayEnd today at endHour:00
(the weekday and hour resolutions are modelled from the spec, the
`go-naturaldate` dependency's source being outside the repository). -/
theorem isDuringBusinessHours_reference_points
    (ws we : String) (a b ds de : Nat) (now : Nat)
    (hws : parseWeekday ws = some a) (hwe : parseWeekday we = some b)
    (hds : ds ≤ 23) (hde : de ≤ 23) :
    isDuringBusinessHours ws we ds de now =
      Except.ok (outsideCondition
        (addHours (mostRecentOccurrenceMidnight a now) ds)
        (addHours (nextOccurrenceMidnight b now) de)
        (todayAtHour ds now) (todayAtHour de now) now) := by
  simp [isDuringBusinessHours, naturaldateParseLast, naturaldateParseNext,
    naturaldateParseHour, hws, hwe, hds, hde]

/-- Claim C3 witness: the reference-point characterisation instantiated at the
default Monday–Friday 8–18 window and Wednesday noon. -/
theorem isDuringBusinessHours_reference_points_witness :
    isDuringBusinessHours "Monday" "Friday" 8 18 wedNoon =
      Except.ok (outsideCondition
        (addHours (mostRecentOccurrenceMidnight 1 wedNoon) 8)
        (addHours (nextOccurrenceMidnight 5 wedNoon) 18)
        (todayAtHour 8 wedNoon) (todayAtHour 18 wedNoon) wedNoon) :=
  isDuringBusinessHours_reference_points "Monday" "Friday" 1 5 8 18 wedNoon rfl rfl
    (by decide) (by decide)

/-- Claim C4 counterexample: at Saturday 12:00 with window Monday–Friday 8–18
the evaluator returns `false` — none of the outside conditions holds, because
the computed week-level bounds (most recent Monday, next Friday) contain every
Saturday and 12:00 passes the same-day hour checks — so the instant is
classified inside business hours, not outside as the claim states. -/
theorem saturday_noon_classified_inside :
    isDuringBusinessHours "Monday" "Friday" 8 18 satNoon = Except.ok false :=
  rfl

/-- Claim C4 (amended): for the Monday–Friday 8–18 window, reading the
returned boolean as the spec's OUTSIDE condition: Wednesday 12:00 is inside;
Saturday 12:00 is inside (the week-level bounds always contain the instant);
Wednesday 07:59 is outside; Wednesday 18:00 is inside (strict boundaries);
Wednesday 18:01 is outside. -/
theorem window_example_instants :
    isDuringBusinessHours "Monday" "Friday" 8 18 wedNoon = Except.ok false ∧
    isDuringBusinessHours "Monday" "Friday" 8 18 satNoon = Except.ok false ∧
    isDuringBusinessHours "Monday" "Friday" 8 18 wedZeroSevenFiftyNine = Except.ok true ∧
    isDuringBusinessHours "Monday" "Friday" 8 18 wedEighteen = Except.ok false ∧
    isDuringBusinessHours "Monday" "Friday" 8 18 wedEighteenOhOne = Except.ok true :=
  ⟨rfl, rfl, rfl, rfl, rfl⟩

/-- Claim C5: for well-formed input — weekday names that resolve and hours in
0–23 — the evaluator never fails: it returns `.ok` with a boolean (the Go
function returns a nil error). -/
theorem isDuringBusinessHours_never_fails
    (ws we : String) (a b ds de : Nat) (now : Nat)
    (hws : parseWeekday ws = some a) (hwe : parseWeekday we = some b)
    (hds : ds ≤ 23) (hde : de ≤ 23) :
    ∃ v, isDuringBusinessHours ws we ds de now = Except.ok v := by
  simp [isDuringBusinessHours, naturaldateParseLast, naturaldateParseNext,
    naturaldateParseHour, hws, hwe, hds, hde]

/-- Claim C5 witness: the default window at Wednesday noon evaluates without
error. -/
theorem isDuringBusinessHours_never_fails_witness :
    ∃ v, isDuringBusinessHours "Monday" "Friday" 8 18 wedNoon = Except.ok v :=
  isDuringBusinessHours_never_fails "Monday" "Friday" 1 5 8 18 wedNoon rfl rfl
    (by decide) (by decide)

/-- Claim C6 counterexample: with `WORK_WEEK_START` set to the unresolvable
name "Funday", startup still succeeds (`main` performs no window validation),
and the malformed name is instead handled per request: `handleCallRequest`
answers that request with the HTTP 400 JSON error produced by `appError`. -/
theorem malformed_config_survives_startup :
    mainStartup [("WORK_WEEK_START", "Funday")] true = Except.ok () ∧
    handleCallRequest voiceOk [("WORK_WEEK_START", "Funday")] wedNoon =
      [appErrorEvent ("could not determine if current time is within business hours. reason: "
        ++ ("cannot parse: last " ++ "Funday"))] :=
  ⟨rfl, rfl⟩

/-- Claim C6 (amended): malformed window configuration is not detected at
startup — startup succeeds for any environment, aborting only when the `.env`
file fails to load — and an unresolvable weekday name is handled per request,
`handleCallRequest` answering that request with an HTTP 400 JSON error. -/
theorem config_error_per_request
    (env : Env) (voice : VoiceFn) (now : Nat)
    (hbad : parseWeekday (getEnv env "WORK_WEEK_START" "Monday") = none) :
    mainStartup env true = Except.ok () ∧
    handleCallRequest voice env now =
      [appErrorEvent ("could not determine if current time is within business hours. reason: "
        ++ ("cannot parse: last " ++ getEnv env "WORK_WEEK_START" "Monday"))] := by
  refine ⟨rfl, ?_⟩
  simp [handleCallRequest, isDuringBusinessHours, naturaldateParseLast, hbad]

/-- Claim C6 witness: the amended statement instantiated at an environment
binding `WORK_WEEK_START` to "Funday". -/
theorem config_error_per_request_witness :
    mainStartup [("WORK_WEEK_START", "Funday")] true = Except.ok () ∧
    handleCallRequest voiceOk [("WORK_WEEK_START", "Funday")] wedEighteen =
      [appErrorEvent ("could not determine if current time is within business hours. reason: "
        ++ ("cannot parse: last "
          ++ getEnv [("WORK_WEEK_START", "Funday")] "WORK_WEEK_START" "Monday"))] :=
  config_error_per_request [("WORK_WEEK_START", "Funday")] voiceOk wedEighteen rfl

/-- Claim C7: for a fixed day, an instant whose time of day is before
startHour:00 or after endHour:00 always evaluates to outside business hours
(the evaluator returns `true`, the spec's OUTSIDE condition), whatever the
week-level bounds contribute. -/
theorem hours_outside_day_window_always_outside
    (ws we : String) (a b ds de : Nat) (now : Nat)
    (hws : parseWeekday ws = some a) (hwe : parseWeekday we = some b)
    (hds : ds ≤ 23) (hde : de ≤ 23)
    (h : minuteOfDay now < 60 * ds ∨ 60 * de < minuteOfDay now) :
    isDuringBusinessHours ws we ds de now = Except.ok true := by
  have hpt : isDuringBusinessHours ws we ds de now =
      Except.ok (outsideCondition
        (addHours (mostRecentOccurrenceMidnight a now) ds)
        (addHours (nextOccurrenceMidnight b now) de)
        (todayAtHour ds now) (todayAtHour de now) now) := by
    simp [isDuringBusinessHours, naturaldateParseLast, naturaldateParseNext,
      naturaldateParseHour, hws, hwe, hds, hde]
  rw [hpt]
  have hout : outsideCondition
      (addHours (mostRecentOccurrenceMidnight a now) ds)
      (addHours (nextOccurrenceMidnight b now) de)
      (todayAtHour ds now) (todayAtHour de now) now = true := by
    rcases h with h | h
    · have hlt : now < todayAtHour ds now := by
        unfold todayAtHour midnightOf minutesPerDay
        unfold minuteOfDay minutesPerDay at h
        omega
      simp [outsideCondition, timeBefore, hlt]
    · have hlt : todayAtHour de now < now := by
        unfold todayAtHour midnightOf minutesPerDay
        unfold minuteOfDay minutesPerDay at h
        omega
      simp [outsideCondition, timeAfter, hlt]
  rw [hout]

/-- Claim C7 witness: Wednesday 07:59 with the default window is outside,
through the day-level check alone. -/
theorem hours_outside_day_window_always_outside_witness :
    isDuringBusinessHours "Monday" "Friday" 8 18 wedZeroSevenFiftyNine = Except.ok true :=
  hours_outside_day_window_always_outside "Monday" "Friday" 1 5 8 18
    wedZeroSevenFiftyNine rfl rfl (by decide) (by decide) (Or.inl (by decide))

/-- Claim C8: the evaluation is a deterministic pure function of the instant
and the window: two runs against worlds with the same clock return the same
result, and a run leaves its world exactly as it found it. -/
theorem isDuringBusinessHoursRun_pure
    (ws we : String) (ds de : Nat) (w w' : World) (h : w.clock = w'.clock) :
    (isDuringBusinessHoursRun ws we ds de w).1 = (isDuringBusinessHoursRun ws we ds de w').1 ∧
    (isDuringBusinessHoursRun ws we ds de w).2 = w := by
  refine ⟨?_, rfl⟩
  simp [isDuringBusinessHoursRun, h]

/-- Claim C8 witness: worlds sharing the clock but differing in environment
yield the same evaluation, and the world is returned unchanged. -/
theorem isDuringBusinessHoursRun_pure_witness :
    (isDuringBusinessHoursRun "Monday" "Friday" 8 18 ⟨wedNoon, []⟩).1 =
      (isDuringBusinessHoursRun "Monday" "Friday" 8 18 ⟨wedNoon, [("K", "V")]⟩).1 ∧
    (isDuringBusinessHoursRun "Monday" "Friday" 8 18 ⟨wedNoon, []⟩).2 =
      (⟨wedNoon, []⟩ : World) :=
  isDuringBusinessHoursRun_pure "Monday" "Friday" 8 18 ⟨wedNoon, []⟩
    ⟨wedNoon, [("K", "V")]⟩ rfl

/-- Claim C9: in either branch of `handleCallRequest`, the HTTP 400 JSON error
body of `appError` is written exactly when `twiml.Voice` returns a nil error
(the inverted `err == nil` guard), the markup still being appended after it;
when `twiml.Voice` returns a non-nil error, no error is reported and the empty
result string is the whole body written after the header. -/
theorem handleCallRequest_appError_on_success
    (voice : VoiceFn) (env : Env) (now : Nat) (b : Bool)
    (hok : isDuringBusinessHours (getEnv env "WORK_WEEK_START" "Monday")
        (getEnv env "WORK_WEEK_END" "Friday")
        (atoiOrZero (getEnv env "WORK_DAY_START" "8"))
        (atoiOrZero (getEnv env "WORK_DAY_END" "18")) now = Except.ok b) :
    ((voice (branchElems b env)).2 = none →
      handleCallRequest voice env now =
        [WriteEvent.header "Content-Type" "application/xml",
         appErrorEvent (branchMsg b ++ nilErrorText),
         WriteEvent.write (voice (branchElems b env)).1]) ∧
    (∀ e, voice (branchElems b env) = ("", some e) →
      handleCallRequest voice env now =
        [WriteEvent.header "Content-Type" "application/xml",
         WriteEvent.write ""]) := by
  cases b
  · constructor
    · intro hnone
      simp [branchElems] at hnone
      simp [handleCallRequest, hok, branchElems, branchMsg, hnone]
    · intro e he
      simp [branchElems] at he
      simp [handleCallRequest, hok, he]
  · constructor
    · intro hnone
      simp [branchElems] at hnone
      simp [handleCallRequest, hok, branchElems, branchMsg, hnone]
    · intro e he
      simp [branchElems] at he
      simp [handleCallRequest, hok, he]

/-- Claim C9 witness: at Wednesday noon with the default window (the Record
branch) and an always-succeeding `twiml.Voice`, the error body is written and
the markup follows it. -/
theorem handleCallRequest_appError_on_success_witness :
    (voiceOk (branchElems false [])).2 = none ∧
    handleCallRequest voiceOk [] wedNoon =
      [WriteEvent.header "Content-Type" "application/xml",
       appErrorEvent (branchMsg false ++ nilErrorText),
       WriteEvent.write (voiceOk (branchElems false [])).1] :=
  ⟨rfl, (handleCallRequest_appError_on_success voiceOk [] wedNoon false rfl).1 rfl⟩

/-- Claim C10: `sendVoiceRecording` ignores the `CreateMessage` error entirely
— the outcome is the same for any error value — it completes a response
precisely when the response object and its `Status` field are present (the
`*resp.Status` dereference), in which case it writes the success-or-failure
message for that status, and with a nil response object (the usual error-path
shape) it panics instead of completing. -/
theorem sendVoiceRecording_dereferences_status
    (resp : Option Message) (err err' : Option String) :
    sendVoiceRecording (resp, err) = sendVoiceRecording (resp, err') ∧
    sendVoiceRecording (resp, err) =
      (resp.bind (fun m => m.status)).map (fun st => [WriteEvent.write (statusMessage st)]) ∧
    sendVoiceRecording (none, err) = none := by
  refine ⟨rfl, ?_, rfl⟩
  cases resp with
  | none => rfl
  | some m =>
    obtain ⟨s⟩ := m
    cases s <;> rfl

end CallForwarding
